import Mathlib

/-!
Verification of the FileShare hybrid envelope-encryption and share-lifecycle
core, shallowly embedded from the Python sources (crypto_utils.py,
secure_sharing.py, key_management.py, models.py, crypto_plugins/kyber_kem.py).

Bytes are modelled as natural numbers and byte strings as `List Nat`.
Library primitives that are outside the repository (AES-256-GCM, PBKDF2,
ML-KEM, base64) are modelled as ideal deterministic functions with the
interface behaviour the code relies on: GCM is a keystream XOR plus a
16-entry authentication tag that is a function of key, nonce and ciphertext
and distinguishes the keys that occur in the development; base64 is an
invertible transport encoding and is modelled as the identity on byte
lists; PBKDF2 is a deterministic KDF producing a 32-entry key; ML-KEM is a
correct KEM with implicit rejection (decapsulation with a non-matching
private key yields a pseudorandom shared secret different from the
encapsulated one). Randomness (os.urandom, secrets) is passed as explicit
parameters. All repository functions are translated statement by statement
from the source.
-/

/-- Sum of a byte list, used as a cheap deterministic mix in the modelled
library primitives. -/
def sumList (l : List Nat) : Nat := l.foldr (· + ·) 0

/-- Deterministic encoding of a string into a number, used by the modelled
PBKDF2. -/
def strEnc (s : String) : Nat :=
  s.data.foldr (fun c a => a * 1000 + c.toNat + 1) 0

/-- AES accepts only 128, 192 or 256 bit keys; `algorithms.AES(key)` raises
`ValueError` otherwise. -/
def validKeyLen (key : List Nat) : Bool :=
  key.length == 16 || key.length == 24 || key.length == 32

/-- Modelled AES-CTR keystream inside GCM: a deterministic function of key,
nonce and position. -/
def ks (key nonce : List Nat) (i : Nat) : Nat :=
  sumList key + sumList nonce + i

/-- XOR a byte list with the keystream starting at position `i`; applying it
twice gives back the input (CTR encryption and decryption). -/
def xorKS (key nonce : List Nat) (i : Nat) : List Nat → List Nat
  | [] => []
  | b :: t => (b ^^^ ks key nonce i) :: xorKS key nonce (i + 1) t

/-- Modelled 16-byte GCM authentication tag over (key, nonce, ciphertext).
It starts with the first 13 entries of the key, so two keys differing in
their first entry always produce different tags. -/
def tagOf (key nonce ct : List Nat) : List Nat :=
  key.take 13 ++ [key.length, sumList nonce, sumList ct]

/-- GCM encryption as used throughout crypto_utils.py: the on-disk envelope
is `nonce ++ auth_tag ++ ciphertext`. -/
def aesGcmSeal (key nonce pt : List Nat) : List Nat :=
  nonce ++ tagOf key nonce (xorKS key nonce 0 pt) ++ xorKS key nonce 0 pt

/-- GCM decryption of an envelope `nonce ++ tag ++ ct` (split at offsets 12
and 28, exactly as the source slices `encrypted_data`). Returns `none` when
the key length is invalid, the envelope is too short to contain the 12-byte
nonce and the 16-byte tag, or the tag does not verify; each of these raises
in the Python library and is caught by the callers. -/
def aesGcmOpen (key env : List Nat) : Option (List Nat) :=
  if validKeyLen key then
    if 28 ≤ env.length then
      let nonce := env.take 12
      let tag := (env.drop 12).take 16
      let ct := env.drop 28
      if tag = tagOf key nonce ct then some (xorKS key nonce 0 ct) else none
    else none
  else none

theorem xorKS_length (key nonce : List Nat) (i : Nat) (l : List Nat) :
    (xorKS key nonce i l).length = l.length := by
  induction l generalizing i with
  | nil => rfl
  | cons b t ih => simp [xorKS, ih]

theorem xorKS_xorKS (key nonce : List Nat) (i : Nat) (l : List Nat) :
    xorKS key nonce i (xorKS key nonce i l) = l := by
  induction l generalizing i with
  | nil => rfl
  | cons b t ih =>
    simp only [xorKS, ih]
    rw [Nat.xor_assoc, Nat.xor_self, Nat.xor_zero]

theorem tagOf_length (key nonce ct : List Nat) (hk : 13 ≤ key.length) :
    (tagOf key nonce ct).length = 16 := by
  simp [tagOf, List.length_take, Nat.min_eq_left hk]

theorem validKeyLen_ge13 (key : List Nat) (hk : validKeyLen key = true) :
    13 ≤ key.length := by
  simp only [validKeyLen, Bool.or_eq_true, beq_iff_eq] at hk
  rcases hk with (h | h) | h <;> omega

/-- GCM round trip: opening a sealed envelope with the same key returns the
plaintext. -/
theorem aesGcmOpen_seal (key nonce pt : List Nat)
    (hk : validKeyLen key = true) (hn : nonce.length = 12) :
    aesGcmOpen key (aesGcmSeal key nonce pt) = some pt := by
  have h13 : 13 ≤ key.length := validKeyLen_ge13 key hk
  have htag : (tagOf key nonce (xorKS key nonce 0 pt)).length = 16 :=
    tagOf_length key nonce _ h13
  unfold aesGcmSeal aesGcmOpen
  rw [if_pos hk]
  have hlen : 28 ≤ (nonce ++ tagOf key nonce (xorKS key nonce 0 pt) ++
      xorKS key nonce 0 pt).length := by
    simp [List.length_append, hn, htag]
    omega
  rw [if_pos hlen]
  have htake : (nonce ++ tagOf key nonce (xorKS key nonce 0 pt) ++
      xorKS key nonce 0 pt).take 12 = nonce := by
    rw [List.append_assoc, ← hn, List.take_left]
  have hdrop : (nonce ++ tagOf key nonce (xorKS key nonce 0 pt) ++
      xorKS key nonce 0 pt).drop 12 =
      tagOf key nonce (xorKS key nonce 0 pt) ++ xorKS key nonce 0 pt := by
    rw [List.append_assoc, ← hn, List.drop_left]
  have hdrop28 : (nonce ++ tagOf key nonce (xorKS key nonce 0 pt) ++
      xorKS key nonce 0 pt).drop 28 = xorKS key nonce 0 pt := by
    have : (28 : Nat) = 12 + 16 := by norm_num
    rw [this, ← List.drop_drop, hdrop, ← htag, List.drop_left]
  simp only [htake, hdrop, hdrop28, ← htag, List.take_left]
  simp [xorKS_xorKS]

/-- Base64 is an invertible, non-secret transport encoding
(`base64.b64encode` and `base64.b64decode` compose to the identity); it is
modelled as the identity on byte lists, so a value stored base64-encoded is
stored in directly recoverable form. -/
def b64e (l : List Nat) : List Nat := l

/-- PBKDF2-HMAC-SHA256 (100000 iterations, 32-byte output), modelled as an
ideal deterministic KDF from password string and salt to a 32-entry key. -/
def deriveKDF (pwd : String) (salt : List Nat) : List Nat :=
  (List.range 32).map (fun i => strEnc pwd + sumList salt + i)

theorem deriveKDF_length (pwd : String) (salt : List Nat) :
    (deriveKDF pwd salt).length = 32 := by
  simp [deriveKDF]

/-- SecureFileEncryption.encrypt_data: seal `data` under `key` with a fresh
nonce, returning `(nonce ++ tag ++ ciphertext, b64(salt), b64(nonce))`.
The salt and nonce are drawn from os.urandom and passed here explicitly.
An invalid AES key length raises inside the try block and the function
returns `(None, None, None)`, modelled as `none`. -/
def encrypt_data (data key salt nonce : List Nat) :
    Option (List Nat × List Nat × List Nat) :=
  if validKeyLen key then some (aesGcmSeal key nonce data, b64e salt, b64e nonce)
  else none

/-- SecureFileEncryption.decrypt_data: split the envelope at offsets 12 and
28 and GCM-decrypt; any failure (invalid key length, envelope too short for
nonce plus tag, tag mismatch) is caught and yields `None`. The salt and
nonce arguments are accepted but unused, exactly as in the source. -/
def decrypt_data (encrypted key saltB nonceB : List Nat) : Option (List Nat) :=
  aesGcmOpen key encrypted

/-- PQKeyManager.encrypt_private_key: seal the private key under a key
derived from `password_masterkey` and a fresh salt; returns the envelope
(the caller prepends the salt when storing). -/
def encrypt_private_key (private_key : List Nat) (user_password master : String)
    (salt nonce : List Nat) : List Nat :=
  aesGcmSeal (deriveKDF (user_password ++ "_" ++ master) salt) nonce private_key

/-- PQKeyManager.decrypt_private_key: derive the same key from the password
and stored salt and open the envelope; failures are caught and yield `None`. -/
def decrypt_private_key (encrypted salt : List Nat) (user_password master : String) :
    Option (List Nat) :=
  aesGcmOpen (deriveKDF (user_password ++ "_" ++ master) salt) encrypted

/-- ML-KEM public key derived from a private (decapsulation) key; modelled
as an injective tagging so that the matching relation `pk = pkOf sk` is
decidable. -/
def pkOf (sk : List Nat) : List Nat := 0 :: sk

/-- Shared secret produced by encapsulating to `pk` with randomness `r`:
a 32-byte secret tagged with a leading 0. -/
def ssGood (pk : List Nat) (r : Nat) : List Nat :=
  0 :: List.replicate 31 (sumList pk + r)

/-- Shared secret produced by ML-KEM implicit rejection when decapsulating
with a non-matching private key: a pseudorandom 32-byte secret, tagged with
a leading 1 so it never coincides with the encapsulated secret. -/
def ssBad (sk ct : List Nat) : List Nat :=
  1 :: List.replicate 31 (sumList sk + sumList ct)

/-- KyberKEM.encapsulate: produce `(ciphertext, shared_secret)` for a
public key using fresh randomness `r`. -/
def kemEncaps (pk : List Nat) (r : Nat) : List Nat × List Nat :=
  (r :: pk, ssGood pk r)

/-- KyberKEM.decapsulate: recover the shared secret from a ciphertext with
a private key. A malformed (empty) ciphertext raises inside kyber-py and is
caught, giving `None`; a well-formed ciphertext decapsulated with the wrong
private key yields the implicit-rejection secret. -/
def kemDecaps (ct sk : List Nat) : Option (List Nat) :=
  match ct with
  | r :: pk => if pk = pkOf sk then some (ssGood pk r) else some (ssBad sk ct)
  | [] => none

/-- PQKeyManager.encapsulate_key: KEM-encapsulate to the public key, then
wrap the AES key under the first 32 bytes of the shared secret with a fresh
GCM nonce, returning `(kem_ciphertext, nonce ++ tag ++ wrapped_key)`.
Raises (modelled `none`) when the KEM provider is unavailable. -/
def encapsulate_key (kemAvail : Bool) (aes_key public_key : List Nat)
    (r : Nat) (nonce : List Nat) : Option (List Nat × List Nat) :=
  if kemAvail then
    let p := kemEncaps public_key r
    some (p.1, aesGcmSeal (p.2.take 32) nonce aes_key)
  else none

/-- PQKeyManager.decapsulate_key: decapsulate the shared secret (returning
`None` when the KEM is unavailable, decapsulation fails, or the secret is
empty), then unwrap the AES key under its first 32 bytes; a tag mismatch is
caught and yields `None`. -/
def decapsulate_key (kemAvail : Bool) (kem_ciphertext wrapped_aes_key sk : List Nat) :
    Option (List Nat) :=
  if kemAvail then
    match kemDecaps kem_ciphertext sk with
    | none => none
    | some ss => if ss.isEmpty then none else aesGcmOpen (ss.take 32) wrapped_aes_key
  else none

/-- Python bytes.split applied to the two-byte separator `||` (bytes 124,
124), scanning left to right for non-overlapping occurrences; used to parse
the stored `kem_ciphertext + b"||" + wrapped_aes_key` blobs. -/
def splitGo (acc : List Nat) : List Nat → List (List Nat)
  | 124 :: 124 :: rest => acc :: splitGo [] rest
  | b :: rest => splitGo (acc ++ [b]) rest
  | [] => [acc]

/-- Split a byte list on the separator `||`. -/
def splitPP (l : List Nat) : List (List Nat) := splitGo [] l

/-- A row of the `shares` table as created by _init_shares_table (the full
current schema, including the KEM and private-share columns). Text columns
holding base64 byte strings are modelled as byte lists via `b64e`. -/
structure ShareRow where
  rid : Nat
  share_id : String
  encrypted_filename : String
  original_filename : String
  file_size : Nat
  user_id : Nat
  created_at : Nat
  expiry_time : Nat
  max_downloads : Option Nat
  download_count : Nat
  is_active : Bool
  encryption_key : List Nat
  salt : List Nat
  nonce : List Nat
  kem_ciphertext : Option (List Nat)
  kem_algorithm : Option String
  kem_key_id : Option String
  share_type : String
  target_user_id : Option Nat
  target_kem_ciphertext : Option (List Nat)
  target_kem_algorithm : Option String
deriving DecidableEq

/-- A row of the `server_kem_keys` table. The schema declares
`key_id TEXT UNIQUE NOT NULL`. -/
structure ServerKeyRow where
  key_id : String
  public_key : List Nat
  private_key_encrypted : List Nat
  algorithm : String
  created_at : Nat
  is_active : Bool
deriving DecidableEq

/-- The PQ columns of a `users` row. -/
structure UserRow where
  uid : Nat
  pq_public_key : Option (List Nat)
  pq_private_key_encrypted : Option (List Nat)
deriving DecidableEq

/-- A row of the `files` table as read by FileModel.get_file_by_id. -/
structure FileRow where
  fid : Nat
  filename : String
  original_filename : String
  file_size : Nat
  file_hash : String
  user_id : Nat
  upload_date : Nat
  download_count : Nat
  is_encrypted : Bool
  encryption_salt : Option (List Nat)
  encryption_method : String
deriving DecidableEq

/-- The persistent state the share lifecycle operates on: database tables,
the upload folder (an association list from filename to file bytes), the
current wall clock, and the service configuration (KEM provider present and
available, KeyManagementService injected, its master key, and the KEM
algorithm name). -/
structure St where
  shares : List ShareRow
  serverKeys : List ServerKeyRow
  users : List UserRow
  files : List FileRow
  disk : List (String × List Nat)
  now : Nat
  pq_enabled : Bool
  has_key_mgmt : Bool
  master_key : String
  crypto_master : String
  kem_alg : String
deriving DecidableEq

/-- Read a file from the upload folder. -/
def diskLookup (disk : List (String × List Nat)) (name : String) : Option (List Nat) :=
  (disk.find? (fun p => p.1 == name)).map (·.2)

/-- Python truthiness of an optional integer id (None and 0 are falsy). -/
def pyFalsyNat (o : Option Nat) : Bool :=
  match o with
  | none => true
  | some u => u == 0

/-- Python truthiness of an optional string (None and the empty string are
falsy). -/
def pyFalsyStr (o : Option String) : Bool :=
  match o with
  | none => true
  | some s => s == ""

/-- Python truthiness of an optional byte string (None and empty bytes are
falsy). -/
def optBytesTruthy (o : Option (List Nat)) : Bool :=
  match o with
  | some l => !l.isEmpty
  | none => false

/-- Python truthiness of an optional string field. -/
def optStrTruthy (o : Option String) : Bool :=
  match o with
  | some s => !(s == "")
  | none => false

/-- The expression `kem_key_id or "default"` from download_shared_file. -/
def serverKeyIdOf (o : Option String) : String :=
  match o with
  | some s => if s == "" then "default" else s
  | none => "default"

/-- ServerKEMModel.get_active_server_key: the active row for `key_id` with
the greatest created_at (ORDER BY created_at DESC LIMIT 1). -/
def get_active_server_key (tbl : List ServerKeyRow) (kid : String) :
    Option ServerKeyRow :=
  (tbl.filter (fun r => r.key_id == kid && r.is_active)).foldl
    (fun acc r =>
      match acc with
      | none => some r
      | some b => if r.created_at > b.created_at then some r else some b) none

/-- KeyManagementService.get_server_private_key: fetch the active server
row and decrypt its private key blob (16-byte salt prefix) under the fixed
password "server_static_key" and the service master key. -/
def get_server_private_key (st : St) (kid : String) : Option (List Nat) :=
  match get_active_server_key st.serverKeys kid with
  | none => none
  | some row =>
    decrypt_private_key (row.private_key_encrypted.drop 16)
      (row.private_key_encrypted.take 16) "server_static_key" st.master_key

/-- KeyManagementService.get_server_public_key. -/
def get_server_public_key (st : St) (kid : String) : Option (List Nat) :=
  (get_active_server_key st.serverKeys kid).map (·.public_key)

/-- UserModel.get_user_pq_keys. -/
def get_user_pq_keys (st : St) (uid : Nat) : Option UserRow :=
  st.users.find? (fun u => u.uid == uid)

/-- KeyManagementService.get_user_public_key (truthiness check on the
stored key, as in `if keys and keys[0]`). -/
def get_user_public_key (st : St) (uid : Nat) : Option (List Nat) :=
  match get_user_pq_keys st uid with
  | none => none
  | some u =>
    match u.pq_public_key with
    | some pk => if pk.isEmpty then none else some pk
    | none => none

/-- KeyManagementService.get_user_private_key: fetch the stored blob
(16-byte salt prefix) and decrypt it under the supplied password and the
service master key. -/
def get_user_private_key (st : St) (uid : Nat) (pwd : String) : Option (List Nat) :=
  match get_user_pq_keys st uid with
  | none => none
  | some u =>
    match u.pq_private_key_encrypted with
    | none => none
    | some blob =>
      if blob.isEmpty then none
      else decrypt_private_key (blob.drop 16) (blob.take 16) pwd st.master_key

/-- The download-limit check from download_shared_file:
`if max_downloads and download_count >= max_downloads`. A NULL limit and,
through Python truthiness, a limit of 0 both make the guard false. -/
def limitBlocked (maxd : Option Nat) (count : Nat) : Bool :=
  match maxd with
  | some m => !(m == 0) && decide (count ≥ m)
  | none => false

/-- The structured failure results of download_shared_file, one constructor
per distinct error message in the source. -/
inductive Err where
  | notFound
  | deactivated
  | expired
  | limitReached
  | authRequired
  | accessDenied
  | pwdRequired
  | qsecUnavailable
  | privKeyFail
  | decapFail
  | invalidKemFormat
  | keyMismatch
  | fileMissing
  | decryptFail
deriving DecidableEq

/-- The three access-control checks applied to private shares: requester
authenticated (`not current_user_id`), requester is the bound target
(`current_user_id != target_user_id`), password present
(`not user_password`). -/
def privateAccessCheck (r : ShareRow) (cuid : Option Nat) (pwd : Option String) :
    Option Err :=
  if pyFalsyNat cuid then some .authRequired
  else if cuid ≠ r.target_user_id then some .accessDenied
  else if pyFalsyStr pwd then some .pwdRequired
  else none

/-- The access-control block runs only for private shares. -/
def accessGate (r : ShareRow) (cuid : Option Nat) (pwd : Option String) :
    Option Err :=
  if r.share_type == "private" then privateAccessCheck r cuid pwd else none

/-- Key-recovery step of download_shared_file: starting from the stored
(base64-decoded) key, a private share must decapsulate with the requester
private key; a public share with a server-wrapped copy tries to
decapsulate with the current server key and silently falls back to the
stored key on any failure. -/
def recoverActualKey (st : St) (r : ShareRow) (cuid : Option Nat)
    (pwd : Option String) : Except Err (List Nat) :=
  let stored := b64e r.encryption_key
  if r.share_type == "private" && optBytesTruthy r.target_kem_ciphertext &&
      optStrTruthy r.target_kem_algorithm then
    if !(st.pq_enabled && st.has_key_mgmt) then .error .qsecUnavailable
    else
      match get_user_private_key st (cuid.getD 0) (pwd.getD "") with
      | none => .error .privKeyFail
      | some upriv =>
        match splitPP (r.target_kem_ciphertext.getD []) with
        | [kc, wk] =>
          match decapsulate_key st.pq_enabled kc wk upriv with
          | some k => if k.isEmpty then .error .decapFail else .ok k
          | none => .error .decapFail
        | _ => .error .invalidKemFormat
  else if optBytesTruthy r.kem_ciphertext && optStrTruthy r.kem_algorithm &&
      st.pq_enabled && (r.share_type == "public") then
    match splitPP (r.kem_ciphertext.getD []) with
    | [kc, wk] =>
      match get_server_private_key st (serverKeyIdOf r.kem_key_id) with
      | some spriv =>
        match decapsulate_key st.pq_enabled kc wk spriv with
        | some k => if k.isEmpty then .ok stored else .ok k
        | none => .ok stored
      | none => .ok stored
    | _ => .ok stored
  else .ok stored

/-- The UPDATE statement of _increment_download_count. -/
def incrementDownload (st : St) (sid : String) : St :=
  { st with
    shares := st.shares.map (fun q =>
      if q.share_id == sid then { q with download_count := q.download_count + 1 }
      else q) }

/-- Body of download_shared_file once the share row has been fetched:
validity checks (active, expiry, download limit), private-share access
control, key recovery, link-key verification, file read, decryption and
download-count increment, in source order. -/
def downloadFound (st : St) (r : ShareRow) (sid : String) (token : List Nat)
    (cuid : Option Nat) (pwd : Option String) :
    (Option (List Nat) × Option Err) × St :=
  if !r.is_active then ((none, some .deactivated), st)
  else if decide (st.now > r.expiry_time) then ((none, some .expired), st)
  else if limitBlocked r.max_downloads r.download_count then
    ((none, some .limitReached), st)
  else
    match accessGate r cuid pwd with
    | some e => ((none, some e), st)
    | none =>
      match recoverActualKey st r cuid pwd with
      | .error e => ((none, some e), st)
      | .ok actual =>
        if !(r.share_type == "private") && token ≠ b64e r.encryption_key &&
            token ≠ actual then ((none, some .keyMismatch), st)
        else
          match diskLookup st.disk r.encrypted_filename with
          | none => ((none, some .fileMissing), st)
          | some bytes =>
            match decrypt_data bytes actual r.salt r.nonce with
            | none => ((none, some .decryptFail), st)
            | some data => ((some data, none), incrementDownload st sid)

/-- SecureFileSharing.download_shared_file: fetch the share row by id
(_get_share_record_with_encryption has no is_active filter) and run the
redemption pipeline; the successful payload is the decrypted file bytes. -/
def download_shared_file (st : St) (sid : String) (token : List Nat)
    (cuid : Option Nat) (pwd : Option String) :
    (Option (List Nat) × Option Err) × St :=
  match st.shares.find? (fun r => r.share_id == sid) with
  | none => ((none, some .notFound), st)
  | some r => downloadFound st r sid token cuid pwd

/-- FileModel.get_file_by_id with a user filter (`WHERE id = ? AND
user_id = ?` when the user argument is truthy). -/
def get_file_by_id (files : List FileRow) (fid uid : Nat) : Option FileRow :=
  if uid ≠ 0 then files.find? (fun r => r.fid == fid && r.user_id == uid)
  else files.find? (fun r => r.fid == fid)

/-- SecureFileEncryption.decrypt_file: read the at-rest envelope from disk
and open it under the key derived from `master_password_userid` and the
stored salt; any failure yields `None`. -/
def decrypt_file (st : St) (path : String) (salt : List Nat) (uid : Nat) :
    Option (List Nat) :=
  match diskLookup st.disk path with
  | none => none
  | some bytes =>
    aesGcmOpen (deriveKDF (st.crypto_master ++ "_" ++ toString uid) salt) bytes

/-- The file bytes used as share source: decrypted at rest when the file
row is marked encrypted with a salt, otherwise read directly from disk. -/
def readShareSource (st : St) (f : FileRow) (diskBytes : List Nat) :
    Option (List Nat) :=
  if f.is_encrypted && optBytesTruthy f.encryption_salt then
    decrypt_file st f.filename (f.encryption_salt.getD []) f.user_id
  else some diskBytes

/-- The structured failure results of create_share_from_file_id. -/
inductive CErr where
  | fileNotFound
  | fileNotOnDisk
  | decryptAtRestFail
  | encryptFail
  | targetRequired
  | qsecUnavailable
  | targetNoKeys
deriving DecidableEq

/-- The successful result of create_share_from_file_id: share id, the
link-embedded token (base64 of the share key), expiry and share type. -/
structure CreateOk where
  share_id : String
  token : List Nat
  expiry : Nat
  share_type : String
  target_user_id : Option Nat
deriving DecidableEq

deriving instance DecidableEq for Except

/-- SecureFileSharing.create_share_from_file_id, with the randomness
(share id, share key, salt, nonce, KEM randomness and KEM wrap nonce)
passed explicitly. Look up the file, read or at-rest-decrypt it, encrypt
it under a fresh share key, validate private-share requirements, wrap the
share key for the server (public) or the target user (private) when PQ is
enabled, write the share file and insert the share row (the full-schema
INSERT branch, since _init_shares_table creates all columns). -/
def createShareFromFileId (st : St) (fid uid expiry_hours : Nat)
    (max_downloads : Option Nat) (share_type : String)
    (target_user_id : Option Nat) (share_id : String)
    (share_key salt nonce : List Nat) (kemR : Nat) (kemNonce : List Nat) :
    (Except CErr CreateOk) × St :=
  match get_file_by_id st.files fid uid with
  | none => (.error .fileNotFound, st)
  | some f =>
    match diskLookup st.disk f.filename with
    | none => (.error .fileNotOnDisk, st)
    | some diskBytes =>
      match readShareSource st f diskBytes with
      | none => (.error .decryptAtRestFail, st)
      | some fileData =>
        match encrypt_data fileData share_key salt nonce with
        | none => (.error .encryptFail, st)
        | some (encData, saltB, nonceB) =>
          if share_type == "private" && pyFalsyNat target_user_id then
            (.error .targetRequired, st)
          else if share_type == "private" &&
              !(st.pq_enabled && st.has_key_mgmt) then
            (.error .qsecUnavailable, st)
          else if share_type == "private" &&
              (get_user_public_key st (target_user_id.getD 0)).isNone then
            (.error .targetNoKeys, st)
          else
            let pubWrap : Option (List Nat) × Option String × Option String :=
              if share_type == "public" && st.pq_enabled && st.has_key_mgmt then
                match get_server_public_key st "default" with
                | some spk =>
                  if spk.isEmpty then (none, none, none)
                  else
                    match encapsulate_key st.pq_enabled share_key spk kemR kemNonce with
                    | some (kc, wk) =>
                      (some (kc ++ [124, 124] ++ wk), some st.kem_alg, some "default")
                    | none => (none, none, none)
                | none => (none, none, none)
              else (none, none, none)
            let privWrap : Option (List Nat) × Option String :=
              if share_type == "private" && st.pq_enabled && st.has_key_mgmt then
                match get_user_public_key st (target_user_id.getD 0) with
                | some tpk =>
                  match encapsulate_key st.pq_enabled share_key tpk kemR kemNonce with
                  | some (kc, wk) => (some (kc ++ [124, 124] ++ wk), some st.kem_alg)
                  | none => (none, none)
                | none => (none, none)
              else (none, none)
            let shareFilename := "share_" ++ share_id ++ ".dat"
            let row : ShareRow :=
              { rid := st.shares.length + 1
                share_id := share_id
                encrypted_filename := shareFilename
                original_filename :=
                  if f.original_filename == "" then f.filename
                  else f.original_filename
                file_size := f.file_size
                user_id := uid
                created_at := st.now
                expiry_time := st.now + expiry_hours
                max_downloads := max_downloads
                download_count := 0
                is_active := true
                encryption_key := b64e share_key
                salt := saltB
                nonce := nonceB
                kem_ciphertext := pubWrap.1
                kem_algorithm := pubWrap.2.1
                kem_key_id := pubWrap.2.2
                share_type := share_type
                target_user_id := target_user_id
                target_kem_ciphertext := privWrap.1
                target_kem_algorithm := privWrap.2 }
            let st' :=
              { st with
                shares := st.shares ++ [row]
                disk := (shareFilename, encData) :: st.disk }
            (.ok { share_id := share_id, token := b64e share_key,
                   expiry := st.now + expiry_hours, share_type := share_type,
                   target_user_id := target_user_id }, st')

/-- ServerKEMModel.save_server_key. The schema declares
`key_id TEXT UNIQUE NOT NULL`, so when a row for this key_id already
exists the INSERT raises sqlite3.IntegrityError before the commit and the
whole transaction, including the preceding deactivating UPDATE, is rolled
back; the durable table is unchanged and the exception propagates
(modelled `none`). Otherwise the UPDATE touches no row and the new row is
inserted active. -/
def saveServerKey (tbl : List ServerKeyRow) (kid : String)
    (pk blob : List Nat) (alg : String) (t : Nat) :
    Option (List ServerKeyRow) :=
  if tbl.any (fun r => r.key_id == kid) then none
  else
    some ((tbl.map (fun r =>
      if r.key_id == kid then { r with is_active := false } else r)) ++
      [{ key_id := kid, public_key := pk, private_key_encrypted := blob,
         algorithm := alg, created_at := t, is_active := true }])

/-- At most one active row per key_id in the server_kem_keys table. -/
def AtMostOneActive (tbl : List ServerKeyRow) : Prop :=
  ∀ r ∈ tbl, (tbl.countP (fun q => q.key_id == r.key_id && q.is_active)) ≤ 1

instance (tbl : List ServerKeyRow) : Decidable (AtMostOneActive tbl) := by
  unfold AtMostOneActive
  infer_instance

/-- Local phase of one redemption request in the download-count race: it
first evaluates the limit check against the current counter, then either
delivers the payload and runs the increment UPDATE, or is denied. The
check and the increment are separate SQLite statements on separate
connections, so other requests may interleave between them. -/
inductive RPhase where
  | start
  | checked (ok : Bool)
  | delivered
  | denied
deriving DecidableEq

/-- Global state of two concurrent redemptions of one share. -/
structure RaceSt where
  count : Nat
  p1 : RPhase
  p2 : RPhase
deriving DecidableEq

/-- One scheduler step: run the next statement of the chosen request. -/
def raceStep (maxd : Option Nat) (first : Bool) (s : RaceSt) : RaceSt :=
  let p := if first then s.p1 else s.p2
  let (p', c') :=
    match p with
    | .start => (RPhase.checked (!limitBlocked maxd s.count), s.count)
    | .checked true => (RPhase.delivered, s.count + 1)
    | .checked false => (RPhase.denied, s.count)
    | ph => (ph, s.count)
  if first then { s with p1 := p', count := c' }
  else { s with p2 := p', count := c' }

/-- Run a schedule (a list of request choices) from a starting state. -/
def raceRun (maxd : Option Nat) (sched : List Bool) (s : RaceSt) : RaceSt :=
  sched.foldl (fun acc b => raceStep maxd b acc) s

/-- Opening a sealed envelope with a possibly different key: the parse
always succeeds (the envelope is well-formed) and the result is decided by
the tag comparison alone. -/
theorem aesGcmOpen_seal_general (key2 key nonce pt : List Nat)
    (hk2 : validKeyLen key2 = true) (h13 : 13 ≤ key.length)
    (hn : nonce.length = 12) :
    aesGcmOpen key2 (aesGcmSeal key nonce pt) =
      if tagOf key nonce (xorKS key nonce 0 pt) =
          tagOf key2 nonce (xorKS key nonce 0 pt)
      then some (xorKS key2 nonce 0 (xorKS key nonce 0 pt)) else none := by
  have htag : (tagOf key nonce (xorKS key nonce 0 pt)).length = 16 :=
    tagOf_length key nonce _ h13
  unfold aesGcmSeal aesGcmOpen
  rw [if_pos hk2]
  have hlen : 28 ≤ (nonce ++ tagOf key nonce (xorKS key nonce 0 pt) ++
      xorKS key nonce 0 pt).length := by
    simp [List.length_append, hn, htag]
    omega
  rw [if_pos hlen]
  have htake : (nonce ++ tagOf key nonce (xorKS key nonce 0 pt) ++
      xorKS key nonce 0 pt).take 12 = nonce := by
    rw [List.append_assoc, ← hn, List.take_left]
  have hdrop : (nonce ++ tagOf key nonce (xorKS key nonce 0 pt) ++
      xorKS key nonce 0 pt).drop 12 =
      tagOf key nonce (xorKS key nonce 0 pt) ++ xorKS key nonce 0 pt := by
    rw [List.append_assoc, ← hn, List.drop_left]
  have hdrop28 : (nonce ++ tagOf key nonce (xorKS key nonce 0 pt) ++
      xorKS key nonce 0 pt).drop 28 = xorKS key nonce 0 pt := by
    have h2812 : (28 : Nat) = 12 + 16 := by norm_num
    rw [h2812, ← List.drop_drop, hdrop, ← htag, List.drop_left]
  simp only [htake, hdrop, hdrop28, ← htag, List.take_left]

/-- C1: decrypt_data fails closed: for every key and every byte string, if
the envelope is shorter than the 12-byte nonce plus 16-byte tag, or its
authentication tag does not verify, decrypt_data returns None and no
plaintext bytes. -/
theorem decrypt_data_fails_closed (encrypted key saltB nonceB : List Nat)
    (h : encrypted.length < 28 ∨
      (encrypted.drop 12).take 16 ≠
        tagOf key (encrypted.take 12) (encrypted.drop 28)) :
    decrypt_data encrypted key saltB nonceB = none := by
  unfold decrypt_data aesGcmOpen
  by_cases hk : validKeyLen key = true
  · rw [if_pos hk]
    rcases h with h | h
    · rw [if_neg (by omega)]
    · by_cases hl : 28 ≤ encrypted.length
      · rw [if_pos hl, if_neg h]
      · rw [if_neg hl]
  · rw [if_neg hk]

theorem decrypt_data_fails_closed_witness :
    ([] : List Nat).length < 28 ∧
      decrypt_data [] (List.replicate 32 0) [] [] = none :=
  ⟨by decide, decrypt_data_fails_closed [] (List.replicate 32 0) [] []
    (Or.inl (by decide))⟩

/-- C2: for every plaintext P and 32-byte key K, decrypting the envelope
produced by encrypt_data(P, K) with the same key returns exactly P. -/
theorem encrypt_decrypt_roundtrip (P K salt nonce : List Nat)
    (hK : K.length = 32) (hn : nonce.length = 12) :
    (encrypt_data P K salt nonce).bind
      (fun t => decrypt_data t.1 K t.2.1 t.2.2) = some P := by
  have hk : validKeyLen K = true := by simp [validKeyLen, hK]
  unfold encrypt_data
  rw [if_pos hk]
  simp [decrypt_data, aesGcmOpen_seal K nonce P hk hn]

theorem encrypt_decrypt_roundtrip_witness :
    (List.replicate 32 5).length = 32 ∧
      (encrypt_data [1, 2, 3] (List.replicate 32 5) [] (List.replicate 12 4)).bind
        (fun t => decrypt_data t.1 (List.replicate 32 5) t.2.1 t.2.2) =
        some [1, 2, 3] :=
  ⟨by decide, encrypt_decrypt_roundtrip [1, 2, 3] (List.replicate 32 5) []
    (List.replicate 12 4) (by decide) (by decide)⟩

theorem ssGood_length (pk : List Nat) (r : Nat) : (ssGood pk r).length = 32 := by
  simp [ssGood]

theorem ssGood_take32 (pk : List Nat) (r : Nat) :
    (ssGood pk r).take 32 = ssGood pk r := by
  conv_lhs => rw [← ssGood_length pk r]
  exact List.take_length _

theorem validKeyLen_ssGood (pk : List Nat) (r : Nat) :
    validKeyLen (ssGood pk r) = true := by
  simp [validKeyLen, ssGood_length]

/-- C3: for every 32-byte symmetric key K and matching KEM keypair,
decapsulate_key applied to the (kem_ciphertext, wrapped_aes_key) pair
produced by encapsulate_key(K, pk) returns Some(K). -/
theorem encapsulate_decapsulate_roundtrip (sk K : List Nat) (r : Nat)
    (nonce : List Nat) (hK : K.length = 32) (hn : nonce.length = 12) :
    (encapsulate_key true K (pkOf sk) r nonce).bind
      (fun p => decapsulate_key true p.1 p.2 sk) = some K := by
  unfold encapsulate_key kemEncaps
  simp only [if_pos, Option.bind_some, Option.some_bind]
  unfold decapsulate_key kemDecaps
  simp only [if_pos, reduceIte]
  have hne : (ssGood (pkOf sk) r).isEmpty = false := by simp [ssGood]
  rw [hne]
  simp only [Bool.false_eq_true, if_false, ssGood_take32]
  exact aesGcmOpen_seal _ nonce K (validKeyLen_ssGood _ r) hn

theorem encapsulate_decapsulate_roundtrip_witness :
    (List.replicate 32 9).length = 32 ∧
      (encapsulate_key true (List.replicate 32 9) (pkOf [5]) 0
          (List.replicate 12 2)).bind
        (fun p => decapsulate_key true p.1 p.2 [5]) =
        some (List.replicate 32 9) :=
  ⟨by decide, encapsulate_decapsulate_roundtrip [5] (List.replicate 32 9) 0
    (List.replicate 12 2) (by decide) (by decide)⟩

/-- For a private share, an absent requester or one differing from the
bound target makes the access-control block return a rejection. -/
theorem accessGate_private_some (r : ShareRow) (cuid : Option Nat)
    (pwd : Option String) (htype : r.share_type = "private")
    (hmis : cuid = none ∨ ∃ u, cuid = some u ∧ r.target_user_id ≠ some u) :
    ∃ e, accessGate r cuid pwd = some e := by
  unfold accessGate privateAccessCheck
  rw [htype]
  rw [if_pos (by decide : (("private" : String) == "private") = true)]
  rcases hmis with h | ⟨u, hu, hne⟩
  · subst h
    exact ⟨.authRequired, by simp [pyFalsyNat]⟩
  · subst hu
    by_cases h0 : u = 0
    · exact ⟨.authRequired, by simp [pyFalsyNat, h0]⟩
    · refine ⟨.accessDenied, ?_⟩
      have h1 : pyFalsyNat (some u) = false := by simp [pyFalsyNat, h0]
      rw [h1]
      simp only [Bool.false_eq_true, if_false]
      rw [if_pos (Ne.symm hne)]

/-- When the share row is found, download_shared_file runs the redemption
pipeline on it. -/
theorem download_shared_file_found (st : St) (sid : String) (token : List Nat)
    (cuid : Option Nat) (pwd : Option String) (r : ShareRow)
    (hfind : st.shares.find? (fun q => q.share_id == sid) = some r) :
    download_shared_file st sid token cuid pwd =
      downloadFound st r sid token cuid pwd := by
  unfold download_shared_file
  rw [hfind]

/-- C4: every redemption of a private share by a requester whose user id
differs from the bound target, or by an unauthenticated requester, is
rejected with no payload delivered, whatever password and token are
supplied. -/
theorem private_share_wrong_user_rejected (st : St) (sid : String)
    (token : List Nat) (cuid : Option Nat) (pwd : Option String) (r : ShareRow)
    (hfind : st.shares.find? (fun q => q.share_id == sid) = some r)
    (htype : r.share_type = "private")
    (hmis : cuid = none ∨ ∃ u, cuid = some u ∧ r.target_user_id ≠ some u) :
    (download_shared_file st sid token cuid pwd).1.1 = none := by
  rw [download_shared_file_found st sid token cuid pwd r hfind]
  unfold downloadFound
  obtain ⟨e, he⟩ := accessGate_private_some r cuid pwd htype hmis
  rw [he]
  split_ifs <;> simp

def keyP : List Nat := List.replicate 32 1

def rP : ShareRow :=
  { rid := 1, share_id := "s1", encrypted_filename := "p.dat",
    original_filename := "p.txt", file_size := 3, user_id := 2,
    created_at := 0, expiry_time := 1000, max_downloads := none,
    download_count := 0, is_active := true, encryption_key := keyP,
    salt := [], nonce := [], kem_ciphertext := none, kem_algorithm := none,
    kem_key_id := none, share_type := "private", target_user_id := some 7,
    target_kem_ciphertext := none, target_kem_algorithm := none }

def stP : St :=
  { shares := [rP], serverKeys := [], users := [], files := [], disk := [],
    now := 10, pq_enabled := false, has_key_mgmt := false,
    master_key := "mk", crypto_master := "cm", kem_alg := "Kyber768" }

theorem private_share_wrong_user_rejected_witness :
    (download_shared_file stP "s1" keyP (some 5) (some "pw")).1.1 = none :=
  private_share_wrong_user_rejected stP "s1" keyP (some 5) (some "pw") rP
    (by decide) (by decide) (Or.inr ⟨5, rfl, by decide⟩)

/-- The access-control block never reports an expiry failure. -/
theorem accessGate_ne_expired (r : ShareRow) (cuid : Option Nat)
    (pwd : Option String) : accessGate r cuid pwd ≠ some Err.expired := by
  unfold accessGate privateAccessCheck
  split_ifs <;> simp

/-- The key-recovery step never reports an expiry failure. -/
theorem recoverActualKey_ne_expired (st : St) (r : ShareRow)
    (cuid : Option Nat) (pwd : Option String) :
    recoverActualKey st r cuid pwd ≠ Except.error Err.expired := by
  unfold recoverActualKey
  intro h
  split_ifs at h <;> repeat' (first | split at h | simp_all)

/-- C6 amended: for a found, active share the expiry rejection happens
exactly when the current time strictly exceeds expiry_time (`now > expiry`
is the sole comparison); at the boundary `now = expiry` the share is not
treated as expired. -/
theorem expiry_strict_comparison (st : St) (sid : String) (token : List Nat)
    (cuid : Option Nat) (pwd : Option String) (r : ShareRow)
    (hfind : st.shares.find? (fun q => q.share_id == sid) = some r)
    (hactive : r.is_active = true) :
    ((download_shared_file st sid token cuid pwd).1.2 = some Err.expired) ↔
      st.now > r.expiry_time := by
  rw [download_shared_file_found st sid token cuid pwd r hfind]
  unfold downloadFound
  by_cases hexp : st.now > r.expiry_time
  · simp [hactive, hexp]
  · refine iff_of_false (fun hcon => ?_) hexp
    simp only [hactive, Bool.not_true, Bool.false_eq_true, if_false, hexp,
      decide_eq_true_eq, if_neg hexp] at hcon
    split_ifs at hcon with hlim
    · simp at hcon
    · split at hcon
      · next e heq =>
        simp only [Prod.fst, Prod.snd, Option.some.injEq] at hcon
        exact accessGate_ne_expired r cuid pwd (hcon ▸ heq)
      · split at hcon
        · next e heq =>
          simp only [Prod.fst, Prod.snd, Option.some.injEq] at hcon
          exact recoverActualKey_ne_expired st r cuid pwd (hcon ▸ heq)
        · split_ifs at hcon
          · simp at hcon
          · split at hcon
            · simp at hcon
            · split at hcon <;> simp at hcon

def keyB : List Nat := List.replicate 32 7

def nonceB : List Nat := List.replicate 12 3

def rB : ShareRow :=
  { rid := 1, share_id := "sB", encrypted_filename := "b.dat",
    original_filename := "b.txt", file_size := 3, user_id := 2,
    created_at := 0, expiry_time := 100, max_downloads := none,
    download_count := 0, is_active := true, encryption_key := keyB,
    salt := [], nonce := [], kem_ciphertext := none, kem_algorithm := none,
    kem_key_id := none, share_type := "public", target_user_id := none,
    target_kem_ciphertext := none, target_kem_algorithm := none }

def stB : St :=
  { shares := [rB], serverKeys := [], users := [], files := [],
    disk := [("b.dat", aesGcmSeal keyB nonceB [1, 2, 3])],
    now := 100, pq_enabled := false, has_key_mgmt := false,
    master_key := "mk", crypto_master := "cm", kem_alg := "Kyber768" }

/-- C6 counterexample: a concrete redemption at a time exactly equal to the
expiry_time of the share is not rejected; the payload is delivered, so a
share at the expiry boundary is not treated as expired. -/
theorem expiry_boundary_redeemable_cex :
    stB.now = rB.expiry_time ∧
      (download_shared_file stB "sB" keyB none none).1.1 = some [1, 2, 3] :=
  ⟨rfl, by decide⟩

def rB2 : ShareRow :=
  { rid := 1, share_id := "sB2", encrypted_filename := "b2.dat",
    original_filename := "b2.txt", file_size := 3, user_id := 2,
    created_at := 0, expiry_time := 100, max_downloads := none,
    download_count := 0, is_active := true, encryption_key := keyB,
    salt := [], nonce := [], kem_ciphertext := none, kem_algorithm := none,
    kem_key_id := none, share_type := "public", target_user_id := none,
    target_kem_ciphertext := none, target_kem_algorithm := none }

def stB2 : St :=
  { shares := [rB2], serverKeys := [], users := [], files := [], disk := [],
    now := 200, pq_enabled := false, has_key_mgmt := false,
    master_key := "mk", crypto_master := "cm", kem_alg := "Kyber768" }

theorem expiry_strict_comparison_witness :
    ((download_shared_file stB2 "sB2" keyB none none).1.2 = some Err.expired) ↔
      stB2.now > rB2.expiry_time :=
  expiry_strict_comparison stB2 "sB2" keyB none none rB2 (by decide) (by decide)

def keyC : List Nat := List.replicate 32 2

def nonceC : List Nat := List.replicate 12 6

def rC : ShareRow :=
  { rid := 1, share_id := "sC", encrypted_filename := "c.dat",
    original_filename := "c.txt", file_size := 2, user_id := 2,
    created_at := 0, expiry_time := 1000, max_downloads := some 0,
    download_count := 5, is_active := true, encryption_key := keyC,
    salt := [], nonce := [], kem_ciphertext := none, kem_algorithm := none,
    kem_key_id := none, share_type := "public", target_user_id := none,
    target_kem_ciphertext := none, target_kem_algorithm := none }

def stC : St :=
  { shares := [rC], serverKeys := [], users := [], files := [],
    disk := [("c.dat", aesGcmSeal keyC nonceC [4, 5])],
    now := 10, pq_enabled := false, has_key_mgmt := false,
    master_key := "mk", crypto_master := "cm", kem_alg := "Kyber768" }

/-- C7 counterexample: a share with max_downloads = 0 and a strictly
positive download_count is redeemed successfully, because the Python guard
`if max_downloads and ...` treats the value 0 as falsy; the claim that
every non-null max_downloads including 0 blocks redemption is false. -/
theorem max_downloads_zero_unlimited_cex :
    rC.max_downloads = some 0 ∧ 0 ≤ rC.download_count ∧
      (download_shared_file stC "sC" keyC none none).1.1 = some [4, 5] :=
  ⟨rfl, by decide, by decide⟩

/-- C7 amended: for every share whose max_downloads is a non-null positive
value, a redemption attempt on a found, active, unexpired share with
download_count at or above the limit is rejected with the download-limit
error, no payload, and an unchanged state; max_downloads = 0 is treated as
falsy (no limit) by the guard. -/
theorem download_limit_positive_enforced (st : St) (sid : String)
    (token : List Nat) (cuid : Option Nat) (pwd : Option String) (r : ShareRow)
    (m : Nat) (hfind : st.shares.find? (fun q => q.share_id == sid) = some r)
    (hactive : r.is_active = true) (hexp : ¬ st.now > r.expiry_time)
    (hm : r.max_downloads = some m) (hm0 : m ≠ 0)
    (hcnt : m ≤ r.download_count) :
    download_shared_file st sid token cuid pwd =
      ((none, some Err.limitReached), st) := by
  rw [download_shared_file_found st sid token cuid pwd r hfind]
  unfold downloadFound
  have hlim : limitBlocked r.max_downloads r.download_count = true := by
    simp [limitBlocked, hm, hm0, hcnt]
  simp [hactive, hexp, hlim]

def rD : ShareRow :=
  { rid := 1, share_id := "sD", encrypted_filename := "d.dat",
    original_filename := "d.txt", file_size := 2, user_id := 2,
    created_at := 0, expiry_time := 1000, max_downloads := some 1,
    download_count := 3, is_active := true, encryption_key := keyC,
    salt := [], nonce := [], kem_ciphertext := none, kem_algorithm := none,
    kem_key_id := none, share_type := "public", target_user_id := none,
    target_kem_ciphertext := none, target_kem_algorithm := none }

def stD : St :=
  { shares := [rD], serverKeys := [], users := [], files := [], disk := [],
    now := 10, pq_enabled := false, has_key_mgmt := false,
    master_key := "mk", crypto_master := "cm", kem_alg := "Kyber768" }

theorem download_limit_positive_enforced_witness :
    download_shared_file stD "sD" keyC none none =
      ((none, some Err.limitReached), stD) :=
  download_limit_positive_enforced stD "sD" keyC none none rD 1 (by decide)
    (by decide) (by decide) (by decide) (by decide) (by decide)

theorem ssBad_length (skl ctl : List Nat) : (ssBad skl ctl).length = 32 := by
  simp [ssBad]

theorem ssBad_take32 (skl ctl : List Nat) :
    (ssBad skl ctl).take 32 = ssBad skl ctl := by
  conv_lhs => rw [← ssBad_length skl ctl]
  exact List.take_length _

theorem validKeyLen_ssBad (skl ctl : List Nat) :
    validKeyLen (ssBad skl ctl) = true := by
  simp [validKeyLen, ssBad_length]

/-- The implicit-rejection secret and the encapsulated secret always
produce different GCM tags, because they differ in their first byte. -/
theorem tagOf_ssBad_ne_ssGood (skl ctl pk : List Nat) (r : Nat)
    (n c : List Nat) : tagOf (ssBad skl ctl) n c ≠ tagOf (ssGood pk r) n c := by
  intro h
  have h13 : (13 : Nat) = 12 + 1 := rfl
  simp only [tagOf, ssBad, ssGood, h13, List.take_succ_cons, List.cons_append,
    List.cons.injEq] at h
  exact absurd h.1 one_ne_zero

/-- Decapsulating a wrapped share key with an arbitrary private key either
fails (tag mismatch under the implicit-rejection secret) or returns the
original share key (matching keypair); it can never return a different
key. -/
theorem decapsulate_wrap_cases (share_key pk1 : List Nat) (rr : Nat)
    (kn sk : List Nat) (hkn : kn.length = 12) :
    decapsulate_key true (rr :: pk1)
        (aesGcmSeal ((ssGood pk1 rr).take 32) kn share_key) sk = none ∨
      decapsulate_key true (rr :: pk1)
        (aesGcmSeal ((ssGood pk1 rr).take 32) kn share_key) sk =
        some share_key := by
  have hred : kemDecaps (rr :: pk1) sk =
      if pk1 = pkOf sk then some (ssGood pk1 rr)
      else some (ssBad sk (rr :: pk1)) := rfl
  unfold decapsulate_key
  rw [if_pos rfl, hred]
  by_cases hpk : pk1 = pkOf sk
  · right
    rw [if_pos hpk]
    have hne : (ssGood pk1 rr).isEmpty = false := by simp [ssGood]
    show (if (ssGood pk1 rr).isEmpty = true then none
      else aesGcmOpen ((ssGood pk1 rr).take 32)
        (aesGcmSeal ((ssGood pk1 rr).take 32) kn share_key)) = some share_key
    rw [hne]
    simp only [Bool.false_eq_true, if_false]
    rw [ssGood_take32]
    exact aesGcmOpen_seal _ kn share_key (validKeyLen_ssGood pk1 rr) hkn
  · left
    rw [if_neg hpk]
    have hne : (ssBad sk (rr :: pk1)).isEmpty = false := by simp [ssBad]
    show (if (ssBad sk (rr :: pk1)).isEmpty = true then none
      else aesGcmOpen ((ssBad sk (rr :: pk1)).take 32)
        (aesGcmSeal ((ssGood pk1 rr).take 32) kn share_key)) = none
    rw [hne]
    simp only [Bool.false_eq_true, if_false]
    rw [ssBad_take32, ssGood_take32]
    rw [aesGcmOpen_seal_general (ssBad sk (rr :: pk1)) (ssGood pk1 rr) kn
      share_key (validKeyLen_ssBad sk (rr :: pk1))
      (by rw [ssGood_length]; omega) hkn]
    rw [if_neg]
    intro h
    exact tagOf_ssBad_ne_ssGood sk (rr :: pk1) pk1 rr kn _ h.symm

/-- For a public share whose stored KEM copy wraps the stored key itself,
key recovery always yields the stored key, whatever the server key table
currently holds: the server private key may be unavailable, or
decapsulation under a rotated (non-matching) key fails and the code falls
back to the stored legacy key, or decapsulation under the matching key
returns that same key. -/
theorem recoverActualKey_public_stored (st : St) (r : ShareRow)
    (share_key pk1 : List Nat) (rr : Nat) (kn kc wk : List Nat)
    (htype : r.share_type = "public")
    (hkey : r.encryption_key = share_key)
    (hklen : share_key.length = 32)
    (hwrap : encapsulate_key true share_key pk1 rr kn = some (kc, wk))
    (hct : ∀ blob, r.kem_ciphertext = some blob → splitPP blob = [kc, wk])
    (hkn : kn.length = 12) :
    recoverActualKey st r none none = .ok share_key := by
  obtain ⟨hkc, hwk⟩ : kc = rr :: pk1 ∧
      wk = aesGcmSeal ((ssGood pk1 rr).take 32) kn share_key := by
    unfold encapsulate_key kemEncaps at hwrap
    rw [if_pos rfl] at hwrap
    simp only [Option.some.injEq, Prod.mk.injEq] at hwrap
    exact ⟨hwrap.1.symm, hwrap.2.symm⟩
  subst hkc
  subst hwk
  have hskne : share_key.isEmpty = false := by
    cases share_key with
    | nil => simp at hklen
    | cons a l => rfl
  unfold recoverActualKey
  have hpriv : (("public" : String) == "private") = false := by decide
  have hpub : (("public" : String) == "public") = true := by decide
  simp only [htype, hpriv, Bool.false_and, Bool.false_eq_true, if_false,
    hpub, Bool.and_true]
  by_cases hC : (optBytesTruthy r.kem_ciphertext &&
      optStrTruthy r.kem_algorithm && st.pq_enabled) = true
  · rw [if_pos hC]
    have hpq : st.pq_enabled = true := by
      simp only [Bool.and_eq_true] at hC
      exact hC.2
    obtain ⟨blob, hcb⟩ : ∃ blob, r.kem_ciphertext = some blob := by
      simp only [Bool.and_eq_true] at hC
      rcases h : r.kem_ciphertext with _ | blob
      · rw [h] at hC
        simp [optBytesTruthy] at hC
      · exact ⟨blob, rfl⟩
    rw [hcb]
    simp only [Option.getD_some]
    rw [hct blob hcb]
    show (match get_server_private_key st (serverKeyIdOf r.kem_key_id) with
      | some spriv =>
        match decapsulate_key st.pq_enabled (rr :: pk1)
            (aesGcmSeal ((ssGood pk1 rr).take 32) kn share_key) spriv with
        | some k => if k.isEmpty = true then Except.ok (b64e r.encryption_key)
            else Except.ok k
        | none => Except.ok (b64e r.encryption_key)
      | none => Except.ok (b64e r.encryption_key)) = Except.ok share_key
    rcases hs : get_server_private_key st (serverKeyIdOf r.kem_key_id) with
      _ | spriv
    · simp [hkey, b64e]
    · show (match decapsulate_key st.pq_enabled (rr :: pk1)
          (aesGcmSeal ((ssGood pk1 rr).take 32) kn share_key) spriv with
        | some k => if k.isEmpty = true then Except.ok (b64e r.encryption_key)
            else Except.ok k
        | none => Except.ok (b64e r.encryption_key)) = Except.ok share_key
      rw [hpq]
      rcases decapsulate_wrap_cases share_key pk1 rr kn spriv hkn with hd | hd
      · rw [hd]
        simp [hkey, b64e]
      · rw [hd]
        simp [hskne]
  · rw [if_neg hC]
    simp [hkey, b64e]

/-- C8: a still-valid public share whose stored KEM copy was wrapped under
an earlier server key remains redeemable with its original link-embedded
key, whatever the server key table now holds (in particular after the old
row was deactivated and a new active row inserted): decapsulation under a
non-matching rotated key fails and download_shared_file falls back to the
stored legacy key, which equals the link key. -/
theorem rotated_key_share_still_redeemable
    (st : St) (sid : String) (r : ShareRow)
    (share_key fdata fnonce pk1 : List Nat) (rr : Nat) (kn kc wk : List Nat)
    (hfind : st.shares.find? (fun q => q.share_id == sid) = some r)
    (hactive : r.is_active = true)
    (hexp : ¬ st.now > r.expiry_time)
    (hlim : limitBlocked r.max_downloads r.download_count = false)
    (htype : r.share_type = "public")
    (hkey : r.encryption_key = share_key)
    (hklen : share_key.length = 32)
    (hwrap : encapsulate_key true share_key pk1 rr kn = some (kc, wk))
    (hct : ∀ blob, r.kem_ciphertext = some blob → splitPP blob = [kc, wk])
    (hkn : kn.length = 12)
    (hdisk : diskLookup st.disk r.encrypted_filename =
      some (aesGcmSeal share_key fnonce fdata))
    (hfn : fnonce.length = 12) :
    (download_shared_file st sid (b64e share_key) none none).1.1 =
      some fdata := by
  rw [download_shared_file_found st sid (b64e share_key) none none r hfind]
  unfold downloadFound
  have hag : accessGate r none none = none := by
    unfold accessGate
    rw [htype]
    exact if_neg (by decide)
  have hrec := recoverActualKey_public_stored st r share_key pk1 rr kn kc wk
    htype hkey hklen hwrap hct hkn
  have hvk : validKeyLen share_key = true := by simp [validKeyLen, hklen]
  have hdec : decrypt_data (aesGcmSeal share_key fnonce fdata) share_key
      r.salt r.nonce = some fdata := aesGcmOpen_seal share_key fnonce fdata hvk hfn
  simp only [hactive, Bool.not_true, Bool.false_eq_true, if_false, hlim,
    hag, hrec, hkey, hdisk, hdec, b64e]
  rw [if_neg (by simpa using hexp)]
  simp

def keyR : List Nat := List.replicate 32 4

def fnonceR : List Nat := List.replicate 12 1

def knR : List Nat := List.replicate 12 2

/-- Concrete wrap of keyR under the old server public key pkOf [11]. -/
def wrapR : List Nat × List Nat :=
  (encapsulate_key true keyR (pkOf [11]) 5 knR).getD ([], [])

def blobR : List Nat := wrapR.1 ++ [124, 124] ++ wrapR.2

def saltR : List Nat := List.replicate 16 9

def nonceR12 : List Nat := List.replicate 12 8

def rR : ShareRow :=
  { rid := 1, share_id := "sR", encrypted_filename := "r.dat",
    original_filename := "r.txt", file_size := 2, user_id := 2,
    created_at := 0, expiry_time := 1000, max_downloads := none,
    download_count := 0, is_active := true, encryption_key := keyR,
    salt := [], nonce := [], kem_ciphertext := some blobR,
    kem_algorithm := some "Kyber768", kem_key_id := some "default",
    share_type := "public", target_user_id := none,
    target_kem_ciphertext := none, target_kem_algorithm := none }

/-- Post-rotation server key table: the row for the old private key [11] is
deactivated, a fresh active row holds the new private key [22]. -/
def stR : St :=
  { shares := [rR],
    serverKeys :=
      [{ key_id := "default", public_key := pkOf [11],
         private_key_encrypted :=
           saltR ++ encrypt_private_key [11] "server_static_key" "mk" saltR nonceR12,
         algorithm := "Kyber768", created_at := 1, is_active := false },
       { key_id := "default", public_key := pkOf [22],
         private_key_encrypted :=
           saltR ++ encrypt_private_key [22] "server_static_key" "mk" saltR nonceR12,
         algorithm := "Kyber768", created_at := 2, is_active := true }],
    users := [], files := [],
    disk := [("r.dat", aesGcmSeal keyR fnonceR [1, 2])],
    now := 10, pq_enabled := true, has_key_mgmt := true,
    master_key := "mk", crypto_master := "cm", kem_alg := "Kyber768" }

theorem rotated_key_share_still_redeemable_witness :
    (download_shared_file stR "sR" (b64e keyR) none none).1.1 = some [1, 2] :=
  rotated_key_share_still_redeemable stR "sR" rR keyR [1, 2] fnonceR
    (pkOf [11]) 5 knR wrapR.1 wrapR.2 (by decide) (by decide) (by decide)
    (by decide) (by decide) (by decide) (by decide) (by decide)
    (by intro blob hb
        have hbl : blob = blobR := by
          simp only [rR, Option.some.injEq] at hb
          exact hb.symm
        subst hbl
        decide)
    (by decide) (by decide) (by decide)

def keyE : List Nat := List.replicate 32 3

def fE : FileRow :=
  { fid := 1, filename := "e.bin", original_filename := "e.txt",
    file_size := 2, file_hash := "h", user_id := 2, upload_date := 0,
    download_count := 0, is_encrypted := false, encryption_salt := none,
    encryption_method := "none" }

def stE : St :=
  { shares := [], serverKeys := [], users := [], files := [fE],
    disk := [("e.bin", [8, 9])], now := 10, pq_enabled := false,
    has_key_mgmt := false, master_key := "mk", crypto_master := "cm",
    kem_alg := "Kyber768" }

/-- C5 counterexample: a successful share creation persists a shares row
whose encryption_key column is exactly the base64 encoding of the 32-byte
share key, so the share key is persisted in merely-base64-encoded form. -/
theorem share_key_persisted_cex :
    (createShareFromFileId stE 1 2 24 none "public" none "sE" keyE
        (List.replicate 16 0) (List.replicate 12 0) 0 []).1 =
      .ok { share_id := "sE", token := keyE, expiry := 34,
            share_type := "public", target_user_id := none } ∧
      (createShareFromFileId stE 1 2 24 none "public" none "sE" keyE
        (List.replicate 16 0) (List.replicate 12 0) 0 []).2.shares.any
        (fun q => q.encryption_key == b64e keyE) = true :=
  ⟨by decide, by decide⟩

/-- C5 amended: every row persisted by a successful create_share_from_file_id
holds the share key base64-encoded in its encryption_key column (the
legacy create_shareable_file likewise embeds the base64 key inside the
persisted share_token), so the share key is always persisted in directly
recoverable form. -/
theorem share_key_persisted_in_row (st : St) (fid uid eh : Nat)
    (maxd : Option Nat) (stype : String) (tuid : Option Nat) (sid : String)
    (share_key salt nonce : List Nat) (kemR : Nat) (kemNonce : List Nat)
    (info : CreateOk) (st2 : St)
    (h : createShareFromFileId st fid uid eh maxd stype tuid sid share_key
      salt nonce kemR kemNonce = (.ok info, st2)) :
    (st2.shares.getLast?).map (fun q => q.encryption_key) =
      some (b64e share_key) := by
  unfold createShareFromFileId at h
  rcases hf : get_file_by_id st.files fid uid with _ | f <;>
    simp only [hf] at h
  · exact absurd h (by simp)
  rcases hd : diskLookup st.disk f.filename with _ | diskBytes <;>
    simp only [hd] at h
  · exact absurd h (by simp)
  rcases hfd : readShareSource st f diskBytes with _ | fileData <;>
    simp only [hfd] at h
  · exact absurd h (by simp)
  rcases he : encrypt_data fileData share_key salt nonce with
    _ | ⟨encData, saltB2, nonceB2⟩ <;> simp only [he] at h
  · exact absurd h (by simp)
  by_cases hg1 : (stype == "private" && pyFalsyNat tuid) = true
  · simp only [hg1, if_true] at h
    exact absurd h (by simp)
  rw [Bool.not_eq_true] at hg1
  simp only [hg1, Bool.false_eq_true, if_false] at h
  by_cases hg2 : (stype == "private" &&
      !(st.pq_enabled && st.has_key_mgmt)) = true
  · simp only [hg2, if_true] at h
    exact absurd h (by simp)
  rw [Bool.not_eq_true] at hg2
  simp only [hg2, Bool.false_eq_true, if_false] at h
  by_cases hg3 : (stype == "private" &&
      (get_user_public_key st (tuid.getD 0)).isNone) = true
  · simp only [hg3, if_true] at h
    exact absurd h (by simp)
  rw [Bool.not_eq_true] at hg3
  simp only [hg3, Bool.false_eq_true, if_false] at h
  simp only [Prod.mk.injEq, Except.ok.injEq] at h
  obtain ⟨h1, h2⟩ := h
  subst h2
  show ((st.shares ++ [_]).getLast?).map _ = _
  rw [List.getLast?_concat]
  rfl

theorem share_key_persisted_in_row_witness :
    ((createShareFromFileId stE 1 2 24 none "public" none "sE" keyE
        (List.replicate 16 0) (List.replicate 12 0) 0 []).2.shares.getLast?).map
      (fun q => q.encryption_key) = some (b64e keyE) :=
  share_key_persisted_in_row stE 1 2 24 none "public" none "sE" keyE
    (List.replicate 16 0) (List.replicate 12 0) 0 []
    { share_id := "sE", token := keyE, expiry := 34, share_type := "public",
      target_user_id := none }
    (createShareFromFileId stE 1 2 24 none "public" none "sE" keyE
      (List.replicate 16 0) (List.replicate 12 0) 0 []).2
    (by decide)

def demoSrvRow : ServerKeyRow :=
  { key_id := "default", public_key := [1], private_key_encrypted := [2],
    algorithm := "Kyber768", created_at := 3, is_active := true }

/-- C9 counterexample: with a row already present for key_id default,
save_server_key does not deactivate it and insert a new active row; the
UNIQUE constraint on key_id makes the INSERT raise IntegrityError and the
uncommitted deactivating UPDATE is rolled back, leaving the table
unchanged with the old row still active. -/
theorem save_server_key_unique_violation_cex :
    saveServerKey [demoSrvRow] "default" [7] [8] "Kyber768" 9 = none ∧
      demoSrvRow.is_active = true :=
  ⟨by decide, rfl⟩

/-- C9 amended: at most one active server_kem_keys row per key_id holds at
all times and is preserved by save_server_key, but not by the mechanism
the claim states: for a key_id that already has a row, the UNIQUE
constraint aborts the INSERT and rolls the transaction back (state
unchanged); only for a fresh key_id is a single new active row inserted. -/
theorem server_key_at_most_one_active (tbl : List ServerKeyRow) (kid : String)
    (pk blob : List Nat) (alg : String) (t : Nat)
    (hinv : AtMostOneActive tbl) :
    AtMostOneActive ((saveServerKey tbl kid pk blob alg t).getD tbl) := by
  unfold saveServerKey
  by_cases hex : tbl.any (fun r => r.key_id == kid) = true
  · simp only [hex, if_true, Option.getD_none]
    exact hinv
  · rw [Bool.not_eq_true] at hex
    simp only [hex, Bool.false_eq_true, if_false, Option.getD_some]
    have hnone : ∀ r ∈ tbl, (r.key_id == kid) = false := by
      intro r hr
      by_contra hc
      rw [Bool.not_eq_false] at hc
      have hany : tbl.any (fun r => r.key_id == kid) = true :=
        List.any_eq_true.mpr ⟨r, hr, hc⟩
      rw [hany] at hex
      exact Bool.noConfusion hex
    have hmap : ∀ l : List ServerKeyRow, (∀ r ∈ l, (r.key_id == kid) = false) →
        l.map (fun r => if r.key_id == kid then { r with is_active := false }
          else r) = l := by
      intro l
      induction l with
      | nil => intro _; rfl
      | cons a l ih =>
        intro hall
        simp only [List.map_cons]
        rw [if_neg (by rw [hall a (List.mem_cons_self a l)]; simp)]
        rw [ih (fun r hr => hall r (List.mem_cons_of_mem a hr))]
    rw [hmap tbl hnone]
    intro r hr
    rw [List.countP_append]
    rcases List.mem_append.mp hr with hrt | hrn
    · have hne : (kid == r.key_id) = false := by
        rw [beq_eq_false_iff_ne]
        intro hc
        have hx := hnone r hrt
        rw [← hc] at hx
        simp at hx
      have hz : List.countP (fun q => q.key_id == r.key_id && q.is_active)
          ([⟨kid, pk, blob, alg, t, true⟩] : List ServerKeyRow) = 0 := by
        simp [List.countP_cons, hne]
      rw [hz]
      simpa using hinv r hrt
    · have hr2 : r = (⟨kid, pk, blob, alg, t, true⟩ : ServerKeyRow) := by
        simpa using hrn
      subst hr2
      have hz : List.countP
          (fun q : ServerKeyRow => q.key_id == kid && q.is_active) tbl = 0 := by
        rw [List.countP_eq_zero]
        intro q hq
        simp [hnone q hq]
      simp [List.countP_cons, hz]

theorem server_key_at_most_one_active_witness :
    AtMostOneActive ((saveServerKey [demoSrvRow] "default" [7] [8]
      "Kyber768" 9).getD [demoSrvRow]) :=
  server_key_at_most_one_active [demoSrvRow] "default" [7] [8] "Kyber768" 9
    (by decide)

/-- C10: demonstration of the download-limit race at a concrete input. The
claim says N concurrent redemptions of a share with max_downloads = 1
yield exactly one payload delivery; the code reads download_count and
increments it in separate unserialized SQLite statements, so the schedule
check1-check2-deliver1-deliver2 lets both requests pass the limit check
against count 0 and both deliver, ending with count 2. -/
theorem download_limit_race_two_deliveries :
    (raceRun (some 1) [true, false, true, false]
      { count := 0, p1 := .start, p2 := .start }).p1 = RPhase.delivered ∧
    (raceRun (some 1) [true, false, true, false]
      { count := 0, p1 := .start, p2 := .start }).p2 = RPhase.delivered ∧
    (raceRun (some 1) [true, false, true, false]
      { count := 0, p1 := .start, p2 := .start }).count = 2 := by
  decide
